import Mathlib

/-!
# Verification of the deepInsight concurrent streaming-orchestration core

This file shallowly embeds the parts of the `deepinsight` repository that the
frozen claims are about, and proves or refutes each claim.

Modelling conventions:

* A Python generator workload is modelled by its observable behaviour: the
  list of values it yields, followed by either a return value or a raised
  exception (`GenTrace`).  Each pool worker in
  `deepinsight/utils/parallel_worker_utils.py` drains its own generator into a
  private buffer, so a worker's buffer and outcome depend only on its own
  workload; `Future.result()` blocks until the worker finishes.  Thread
  completion order therefore cannot influence the data observed by the
  caller, which is why the executor is modelled as a deterministic function
  of the workload traces.
* Python exceptions are modelled by the `Exn` structure (exception class name
  plus message); fallible code returns `Except Exn _`.
* Python `dict` is modelled as an insertion-ordered association list:
  assigning to an existing key updates the value in place, assigning to a
  fresh key appends it at the end.
* Python strings are modelled as `String` / `List Char`; the `str.split`,
  `str.strip`, `str.replace`, `str.find` and `in` operations used by the
  source are re-implemented with Python's semantics.
-/

/-- A Python exception value: the class name and the message. -/
structure Exn where
  name : String
  msg : String
deriving DecidableEq, Repr

/-! ## Parallel generator executor
(`deepinsight/utils/parallel_worker_utils.py`)

`Executor.__do_generator_call` submits workloads `1..n-1` to the thread pool
(each wrapped in `_generator_worker`), drives workload `0` inline with
`yield from`, then collects the futures in index order, replaying each
buffer with `yield from it` and raising the recorded error, if any.
-/

/-- The observable behaviour of one generator workload: the values it yields
in production order, then either a normal return value or a raised
exception. -/
structure GenTrace (S T : Type) where
  yields : List S
  outcome : Except Exn T

/-- Source `_generator_worker`: runs the generator to exhaustion, returning the
buffered yields together with the outcome.  The source returns the triple
`(yields, e.value, None)` on `StopIteration` and `(yields, None, e1)` on an
exception; the `(value, error)` pair with exactly one meaningful component is
modelled as `Except`. -/
def generator_worker {S T : Type} (g : GenTrace S T) : List S × Except Exn T :=
  (g.yields, g.outcome)

/-- The collection loop of `Executor.__do_generator_call` over the submitted
futures (source lines 145-157).  For each future in index order it takes the
worker's `(it, result, e)`, replays the buffered messages `it` to the caller,
and then — if the worker recorded an exception — raises it, which exits the
generator at once.  Because `raise e` exits the loop immediately, the
`if e: f.cancel(); continue` guard at the top of the loop body can never be
reached: no later future is ever cancelled on a buffered-workload failure.
Returns the replayed messages and either the collected results or the
first error found. -/
def collectFutures {S T : Type} (fs : List (GenTrace S T)) :
    List S × Except Exn (List T) :=
  match fs with
  | [] => ([], .ok [])
  | f :: rest =>
    match generator_worker f with
    | (it, .error e) => (it, .error e)
    | (it, .ok result) =>
      let (ms, res) := collectFutures rest
      (it ++ ms, res.map (fun l => result :: l))

/-- Source `Executor.__do_generator_call`.  Output components:
the messages yielded to the caller, the outcome (result list or raised
exception), and the list of workload indices on which `Future.cancel` was
invoked.  Workload 0 runs inline on the calling stream; if it fails, every
submitted future (indices `1..n-1`) is cancelled and the error re-raised.
Otherwise the futures are collected in index order by `collectFutures`
(which, per the source, performs no cancellations). -/
def doGeneratorCall {S T : Type} (ws : List (GenTrace S T)) :
    List S × Except Exn (List T) × List Nat :=
  match ws with
  | [] => ([], .ok [], [])
  | w0 :: rest =>
    match w0.outcome with
    | .error e =>
      -- first workload failed: `for f in futures: f.cancel()` then `raise`
      (w0.yields, .error e, (List.range rest.length).map (· + 1))
    | .ok ret0 =>
      let (ms, res) := collectFutures rest
      (w0.yields ++ ms, res.map (fun l => ret0 :: l), [])

/-- All outcomes in a list of traces are normal returns. -/
def allOk {S T : Type} (ws : List (GenTrace S T)) : Prop :=
  ∀ w ∈ ws, (Except.toOption w.outcome).isSome

instance {S T : Type} [DecidableEq T] (ws : List (GenTrace S T)) :
    Decidable (allOk ws) := by
  unfold allOk; infer_instance

/-- The return values of a list of traces, in order (meaningful under
`allOk`). -/
def okValues {S T : Type} (ws : List (GenTrace S T)) : List T :=
  ws.filterMap (fun w => Except.toOption w.outcome)

theorem collectFutures_allOk {S T : Type} (fs : List (GenTrace S T))
    (h : allOk fs) :
    collectFutures fs = ((fs.map GenTrace.yields).flatten, .ok (okValues fs)) := by
  induction fs with
  | nil => rfl
  | cons f rest ih =>
    have hf : (Except.toOption f.outcome).isSome := h f (List.mem_cons_self _ _)
    have hrest : allOk rest := fun w hw => h w (List.mem_cons_of_mem _ hw)
    cases hout : f.outcome with
    | error e => rw [hout] at hf; simp [Except.toOption] at hf
    | ok v =>
      simp only [collectFutures, generator_worker, hout, ih hrest]
      simp [okValues, List.filterMap_cons, hout, Except.toOption, Except.map]

theorem doGeneratorCall_allOk {S T : Type} (ws : List (GenTrace S T))
    (h : allOk ws) :
    doGeneratorCall ws =
      ((ws.map GenTrace.yields).flatten, .ok (okValues ws), []) := by
  cases ws with
  | nil => rfl
  | cons w0 rest =>
    have h0 : (Except.toOption w0.outcome).isSome := h w0 (List.mem_cons_self _ _)
    have hrest : allOk rest := fun w hw => h w (List.mem_cons_of_mem _ hw)
    cases hout : w0.outcome with
    | error e => rw [hout] at h0; simp [Except.toOption] at h0
    | ok v =>
      simp only [doGeneratorCall, hout, collectFutures_allOk rest hrest]
      simp [okValues, List.filterMap_cons, hout, Except.toOption, Except.map]

/-- C1: in a generator-mode call in which every workload runs to normal
completion, the messages the caller observes are exactly workload 0's
messages in production order, then workload 1's, …, then workload n's —
strictly grouped by workload index.  (The executor model is a function of
the per-workload traces alone, so this holds regardless of pool-thread
completion order.) -/
theorem executor_message_order {S T : Type} (ws : List (GenTrace S T))
    (h : allOk ws) :
    (doGeneratorCall ws).1 = (ws.map GenTrace.yields).flatten := by
  rw [doGeneratorCall_allOk ws h]

/-- Witness for `executor_message_order` at a concrete three-workload input. -/
theorem executor_message_order_witness :
    allOk [⟨["a0", "a1"], .ok 0⟩, ⟨["b0"], .ok 1⟩, ⟨["c0", "c1"], .ok 2⟩] ∧
      (doGeneratorCall (S := String) (T := Nat)
          [⟨["a0", "a1"], .ok 0⟩, ⟨["b0"], .ok 1⟩, ⟨["c0", "c1"], .ok 2⟩]).1 =
        ["a0", "a1", "b0", "c0", "c1"] :=
  ⟨by decide, by
    rw [executor_message_order _ (by decide)]
    rfl⟩

theorem okValues_forall₂ {S T : Type} (ws : List (GenTrace S T))
    (h : allOk ws) :
    List.Forall₂ (fun (w : GenTrace S T) r => w.outcome = .ok r) ws
      (okValues ws) := by
  induction ws with
  | nil => exact List.Forall₂.nil
  | cons w rest ih =>
    have hw : (Except.toOption w.outcome).isSome := h w (List.mem_cons_self _ _)
    have hrest : allOk rest := fun x hx => h x (List.mem_cons_of_mem _ hx)
    cases hout : w.outcome with
    | error e => rw [hout] at hw; simp [Except.toOption] at hw
    | ok v =>
      simp only [okValues, List.filterMap_cons, hout, Except.toOption]
      exact List.Forall₂.cons hout (ih hrest)

/-- C3: in a generator-mode call in which every workload runs to normal
completion, the call returns `ok` with a result list that has exactly one
entry per workload and whose `i`-th entry is workload `i`'s return value
(pointwise correspondence in input order; thread completion order cannot
enter the model). -/
theorem executor_result_order {S T : Type} (ws : List (GenTrace S T))
    (h : allOk ws) :
    ∃ rs : List T, (doGeneratorCall ws).2.1 = .ok rs ∧
      rs.length = ws.length ∧
      List.Forall₂ (fun (w : GenTrace S T) r => w.outcome = .ok r) ws rs := by
  refine ⟨okValues ws, by rw [doGeneratorCall_allOk ws h], ?_,
    okValues_forall₂ ws h⟩
  exact List.Forall₂.length_eq (okValues_forall₂ ws h) |>.symm

/-- Witness for `executor_result_order` at a concrete three-workload input. -/
theorem executor_result_order_witness :
    allOk [⟨["a"], .ok 10⟩, ⟨["b"], .ok 11⟩, ⟨["c"], .ok 12⟩] ∧
      ∃ rs : List Nat,
        (doGeneratorCall (S := String)
            [⟨["a"], .ok 10⟩, ⟨["b"], .ok 11⟩, ⟨["c"], .ok 12⟩]).2.1 = .ok rs ∧
          rs.length = 3 ∧
          List.Forall₂ (fun (w : GenTrace String Nat) r => w.outcome = .ok r)
            [⟨["a"], .ok 10⟩, ⟨["b"], .ok 11⟩, ⟨["c"], .ok 12⟩] rs := by
  refine ⟨by decide, ?_⟩
  exact executor_result_order _ (by decide)

/-- C2: evaluation of the executor at a failing buffered workload.  With
three workloads where workload 1 (the first buffered one) raises, the call
replays workload 0's messages and workload 1's partial messages, raises the
same error and returns no result list — but the cancellation list is empty:
the `raise e` in `__do_generator_call` exits the loop before the
`if e: f.cancel()` guard can run on any later future, so workload 2's
already-submitted future is never cancelled (contradicting both the claim
and the source's own log line "cancel the remaining tasks"). -/
theorem executor_buffered_failure_no_cancel :
    doGeneratorCall (S := String) (T := Nat)
        [⟨["a0", "a1"], .ok 10⟩,
         ⟨["b0"], .error ⟨"RuntimeError", "boom"⟩⟩,
         ⟨["c0"], .ok 12⟩] =
      (["a0", "a1", "b0"], .error ⟨"RuntimeError", "boom"⟩, []) := by
  rfl

/-! ## Streaming message protocol and `StreamChatAgent`
(`deepinsight/core/messages.py`, `deepinsight/core/agent/stream_chat_agent.py`)

`StreamChatAgent._handle_stream_response` draws a fresh `stream_id` per model
response and yields `StartMessage` / `ChunkMessage` / `EndMessage` values for
it; `ErrorMessage` is never yielded on this path (failures raise), and the
`CompleteMessage`s yielded by `stream_step` for tool-call records carry their
own fresh `stream_id`s, so the per-`stream_id` sequence of a model-response
stream consists exactly of the messages modelled here. -/

/-- The message kinds that can be observed for one model-response
`stream_id` (`error` exists in the protocol but is never produced by
`_handle_stream_response`). -/
inductive ProtoMsg
  | start (payload : String)
  | chunk (payload : String)
  | endMsg (payload : String)
  | errMsg (error_code : Nat) (error_message : String)
deriving DecidableEq, Repr

/-- Source `openai` chunk delta: the (optional) content of one choice's delta.
`delta.tool_calls` only feeds `_handle_tool_call_request`, whose
accumulator is read after the chunk loop; it yields nothing and cannot
raise during the loop, so it is elided. -/
structure ChoiceDelta0 where
  content : Option String
deriving DecidableEq, Repr

/-- One choice of a `ChatCompletionChunk`. -/
structure StreamChoice where
  index : Nat
  delta : ChoiceDelta0
  finish_reason : Option String
deriving DecidableEq, Repr

/-- A `ChatCompletionChunk` (the fields `id` and `usage` only feed the final
`ModelResponse`, never the yielded protocol messages, and are elided). -/
structure CompletionChunk where
  choices : List StreamChoice
deriving DecidableEq, Repr

/-- Python truthiness of an `Optional[str]`: `None` and `""` are falsy. -/
def truthyOptStr : Option String → Bool
  | none => false
  | some s => s ≠ ""

/-- Python `dict` lookup on an insertion-ordered association list. -/
def dictGet {α β : Type} [DecidableEq α] (d : List (α × β)) (k : α) :
    Option β :=
  match d with
  | [] => none
  | (k1, v) :: rest => if k1 = k then some v else dictGet rest k

/-- Python `dict` assignment: update in place if the key exists, else append
(insertion order is preserved). -/
def dictSet {α β : Type} [DecidableEq α] (d : List (α × β)) (k : α) (v : β) :
    List (α × β) :=
  match d with
  | [] => [(k, v)]
  | (k1, v1) :: rest =>
    if k1 = k then (k1, v) :: rest else (k1, v1) :: dictSet rest k v

theorem dictGet_dictSet_self {α β : Type} [DecidableEq α]
    (d : List (α × β)) (k : α) (v : β) : dictGet (dictSet d k v) k = some v := by
  induction d with
  | nil => simp [dictSet, dictGet]
  | cons p rest ih =>
    by_cases h : p.1 = k <;> simp [dictSet, dictGet, h, ih]

/-- Source `StreamChatAgent._handle_content_delta`: when the delta bears content,
append it to the accumulated content for that choice index (creating an
empty entry first if absent). -/
def handle_content_delta (index : Nat) (delta : ChoiceDelta0)
    (content_dict : List (Nat × String)) : List (Nat × String) :=
  match delta.content with
  | none => content_dict
  | some s =>
    dictSet content_dict index ((dictGet content_dict index).getD "" ++ s)

/-- The per-choice body of the chunk loop of
`StreamChatAgent._handle_stream_response`: run the four `_handle_*` helpers,
then yield at most one protocol message for the choice.
`_handle_finish_reasons_delta` only writes `finish_reasons_dict`, which is
read after the loop, and is elided; `_handle_output_messages` reads
`content_dict[index]` whenever the finish reason is truthy, raising
`KeyError` if no content was ever accumulated for that index. -/
def processChoices (first_stream : Bool) (choices : List StreamChoice)
    (content_dict : List (Nat × String)) :
    Except Exn (List (Nat × String) × List ProtoMsg) :=
  match choices with
  | [] => .ok (content_dict, [])
  | choice :: rest =>
    let cd := handle_content_delta choice.index choice.delta content_dict
    if truthyOptStr choice.finish_reason && (dictGet cd choice.index).isNone
    then .error ⟨"KeyError", "content_dict"⟩
    else
      let msgs : List ProtoMsg :=
        match choice.delta.content with
        | none => []
        | some s =>
          if first_stream then [.start s]
          else if truthyOptStr choice.finish_reason then [.endMsg s]
          else [.chunk s]
      (processChoices first_stream rest cd).map (fun p => (p.1, msgs ++ p.2))

/-- The chunk loop of `_handle_stream_response`: `first_stream` is `True`
for the whole first chunk and `False` afterwards. -/
def processChunks (chunks : List CompletionChunk) (first_stream : Bool)
    (content_dict : List (Nat × String)) : Except Exn (List ProtoMsg) :=
  match chunks with
  | [] => .ok []
  | c :: rest => do
    let (cd, ms) ← processChoices first_stream c.choices content_dict
    let ms2 ← processChunks rest false cd
    pure (ms ++ ms2)

/-- The sequence of protocol messages that
`StreamChatAgent._handle_stream_response` yields for the fresh `stream_id`
of one model-response stream (an error truncates the sequence; everything
after the chunk loop yields nothing). -/
def handleStreamYields (chunks : List CompletionChunk) :
    Except Exn (List ProtoMsg) :=
  processChunks chunks true []

def isChunkMsg : ProtoMsg → Bool
  | .chunk _ => true
  | _ => false

def isTerminalMsg : ProtoMsg → Bool
  | .endMsg _ => true
  | .errMsg _ _ => true
  | _ => false

/-- The per-`stream_id` ordering invariant claimed by the spec: exactly one
`Start` first, then zero or more `Chunk`s, then exactly one of `End` or
`Error`. -/
def streamWellFormed (msgs : List ProtoMsg) : Bool :=
  match msgs with
  | .start _ :: rest =>
    match rest.getLast? with
    | some last => isTerminalMsg last && rest.dropLast.all isChunkMsg
    | none => false
  | _ => false

/-- C4 counterexample: a single-chunk model response whose only choice bears
content together with a finish reason yields just `[Start "hi"]` — the
`first_stream` test precedes the finish-reason test, and no later chunk
exists to produce an `End`, so the stream terminates with no `End` or
`Error` message, refuting the claimed invariant. -/
theorem stream_protocol_counterexample :
    handleStreamYields [⟨[⟨0, ⟨some "hi"⟩, some "stop"⟩]⟩] =
        .ok [.start "hi"] ∧
      streamWellFormed [.start "hi"] = false := ⟨rfl, rfl⟩

theorem processChunks_tail_shape (cl : CompletionChunk) (sl : String)
    (fr : Option String) (hl : cl.choices = [⟨0, ⟨some sl⟩, fr⟩])
    (hfr : truthyOptStr fr = true) (mids : List (CompletionChunk × String))
    (hm : ∀ p ∈ mids, p.1.choices = [(⟨0, ⟨some p.2⟩, none⟩ : StreamChoice)]) :
    ∀ cd : List (Nat × String),
      processChunks (mids.map Prod.fst ++ [cl]) false cd =
        .ok (mids.map (fun p => ProtoMsg.chunk p.2) ++ [.endMsg sl]) := by
  induction mids with
  | nil =>
    intro cd
    simp only [List.map_nil, List.nil_append]
    simp [processChunks, processChoices, hl, hfr, handle_content_delta,
      dictGet_dictSet_self, Except.map, bind, Except.bind, pure, Except.pure]
  | cons p rest ih =>
    intro cd
    have hp : p.1.choices = [(⟨0, ⟨some p.2⟩, none⟩ : StreamChoice)] :=
      hm p (List.mem_cons_self _ _)
    have hrest : ∀ q ∈ rest, q.1.choices =
        [(⟨0, ⟨some q.2⟩, none⟩ : StreamChoice)] :=
      fun q hq => hm q (List.mem_cons_of_mem _ hq)
    simp only [List.map_cons, List.cons_append]
    simp [processChunks, processChoices, hp, truthyOptStr, Except.map,
      ih hrest, bind, Except.bind, pure, Except.pure]

/-- C4 amended: `_handle_stream_response` classifies content-bearing deltas
positionally — those in the first chunk yield `Start`, those in later chunks
yield `End` exactly when the choice carries a truthy finish reason and
`Chunk` otherwise.  Consequently the claimed `Start, Chunk*, End` shape
holds exactly for streams whose first chunk bears one content delta without
a finish reason, whose middle chunks each bear one content delta without a
finish reason, and whose final (distinct) chunk bears one content delta with
a truthy finish reason; outside this shape the invariant can fail (see
`stream_protocol_counterexample`), and an `Error` message is never yielded
on this path. -/
theorem stream_protocol_amended (s0 : String) (c0 : CompletionChunk)
    (mids : List (CompletionChunk × String)) (cl : CompletionChunk)
    (sl : String) (fr : Option String)
    (h0 : c0.choices = [⟨0, ⟨some s0⟩, none⟩])
    (hm : ∀ p ∈ mids, p.1.choices = [(⟨0, ⟨some p.2⟩, none⟩ : StreamChoice)])
    (hl : cl.choices = [⟨0, ⟨some sl⟩, fr⟩])
    (hfr : truthyOptStr fr = true) :
    handleStreamYields (c0 :: mids.map Prod.fst ++ [cl]) =
        .ok (.start s0 :: mids.map (fun p => ProtoMsg.chunk p.2) ++
          [.endMsg sl]) ∧
      streamWellFormed (.start s0 :: mids.map (fun p => ProtoMsg.chunk p.2) ++
        [.endMsg sl]) = true := by
  constructor
  · simp only [handleStreamYields, List.cons_append]
    simp [processChunks, processChoices, h0, truthyOptStr, Except.map, bind,
      Except.bind, pure, Except.pure,
      processChunks_tail_shape cl sl fr hl hfr mids hm]
  · simp only [streamWellFormed, List.cons_append]
    rw [List.getLast?_concat, List.dropLast_concat]
    simp only [isTerminalMsg, Bool.true_and, List.all_eq_true]
    intro m hm'
    obtain ⟨p, -, rfl⟩ := List.mem_map.mp hm'
    rfl

/-- Witness for `stream_protocol_amended` at a concrete three-chunk
stream. -/
theorem stream_protocol_amended_witness :
    truthyOptStr (some "stop") = true ∧
      handleStreamYields
          [⟨[⟨0, ⟨some "Hel"⟩, none⟩]⟩, ⟨[⟨0, ⟨some "lo"⟩, none⟩]⟩,
           ⟨[⟨0, ⟨some "!"⟩, some "stop"⟩]⟩] =
        .ok [.start "Hel", .chunk "lo", .endMsg "!"] := by
  refine ⟨rfl, ?_⟩
  exact (stream_protocol_amended "Hel" ⟨[⟨0, ⟨some "Hel"⟩, none⟩]⟩
    [(⟨[⟨0, ⟨some "lo"⟩, none⟩]⟩, "lo")] ⟨[⟨0, ⟨some "!"⟩, some "stop"⟩]⟩
    "!" (some "stop") rfl (by intro p hp; simp at hp; rw [hp]) rfl rfl).1

/-! ## Role-playing research loop
(`deepinsight/core/agent/researcher.py`)

The user-role and assistant-role agents are LLM-backed collaborators; a run
is modelled by the script of `ChatAgentResponse`s their `run` calls return,
one pair per dialogue round.  The `Message`s the agents stream while running
do not influence the execution trace and are elided.  The `info` dictionary
of a response only supplies the optional `tool_calls` payload attached to a
step and never steers control flow, so it is elided as well. -/

/-- A `camel` `BaseMessage`, reduced to the `content` the researcher
reads. -/
structure CamelMsg where
  content : String
deriving DecidableEq, Repr

/-- A `camel` `ChatAgentResponse`: the `msgs` list (`None` is distinct from
the empty list — the source tests `msgs is None`) and the `terminated`
flag. -/
structure AgentResponse where
  msgs : Option (List CamelMsg)
  terminated : Bool
deriving DecidableEq, Repr

/-- Modelled from the `camel` collaborator: the `ChatAgentResponse.msg`
property returns the single element of `msgs` and raises `RuntimeError`
otherwise — in particular on the `msgs=[]` responses that
`StreamRolePlaying.run` fabricates on early termination.  (No semantics of
"the" message of an empty list can produce content, so the results below do
not hinge on the collaborator's exact error choice.) -/
def AgentResponse.msgProp : AgentResponse → Except Exn CamelMsg
  | ⟨some [m], _⟩ => .ok m
  | _ => .error ⟨"RuntimeError",
      "Property msg is only available for a single message in msgs"⟩

/-- Substring search over character lists: does `needle` occur
contiguously in `hay`? -/
def pyInAux (needle : List Char) : List Char → Bool
  | [] => needle.isEmpty
  | c :: rest => needle.isPrefixOf (c :: rest) || pyInAux needle rest

/-- Python `needle in hay` on strings (substring test). -/
def pyIn (needle hay : String) : Bool :=
  pyInAux needle.toList hay.toList

/-- Source `Researcher._default_should_terminate_callback`: `"TASK_DONE" in
 execution_step.content`. -/
def defaultShouldTerminate (content : String) : Bool :=
  pyIn "TASK_DONE" content

/-- Source `StreamRolePlaying.run` for one round, given the responses the two
agents return.  Mirrors the source's short-circuit order: `terminated`,
then `msgs is None`, then the termination callback applied to
`user_response.msg.content` (reading `.msg` can raise); on early exit it
returns fabricated responses with empty `msgs` lists. -/
def streamRolePlayingRun (cb : String → Bool)
    (user_response assistant_response : AgentResponse) :
    Except Exn (AgentResponse × AgentResponse) := do
  let earlyUser ←
    if user_response.terminated then pure true
    else if user_response.msgs = none then pure true
    else do
      let um ← user_response.msgProp
      pure (cb um.content)
  if earlyUser then
    pure (⟨some [], false⟩, ⟨some [], user_response.terminated⟩)
  else do
    let user_msg ← user_response.msgProp
    if assistant_response.terminated || assistant_response.msgs = none then
      pure (⟨some [], assistant_response.terminated⟩, ⟨some [user_msg], false⟩)
    else do
      let assistant_msg ← assistant_response.msgProp
      pure (⟨some [assistant_msg], assistant_response.terminated⟩,
        ⟨some [user_msg], user_response.terminated⟩)

/-- Source `ExecutionStatus` of a research execution. -/
inductive ExecutionStatus
  | pending | running | completed | failed | paused | cancelled
deriving DecidableEq, Repr

/-- An `ExecutionStep`, reduced to its `content` (timestamps, tool-call
records and metadata never steer the loop). -/
structure ExecStep where
  content : Option String
deriving DecidableEq, Repr

/-- A `ResearchExecution`: the append-only step trace, the current status
and the completion timestamp (abstract clock). -/
structure ResearchExecution where
  steps : List ExecStep
  current_status : ExecutionStatus
  end_time : Option Nat
deriving DecidableEq, Repr

/-- Source `ResearchExecution.add_step`: append the step; move `PENDING` to
`RUNNING` on the first append, otherwise leave the status unchanged. -/
def add_step (re : ResearchExecution) (step : ExecStep) : ResearchExecution :=
  { re with
    steps := re.steps ++ [step]
    current_status :=
      if re.current_status = .pending then .running else re.current_status }

/-- Source `ResearchExecution.fail`: error step, `FAILED`, `end_time` set.  No
researcher path modelled here ever calls it; included for the data model. -/
def failExecution (re : ResearchExecution) (error : String) (now : Nat) :
    ResearchExecution :=
  { re with
    steps := re.steps ++ [⟨some error⟩]
    current_status := .failed
    end_time := some now }

/-- The per-round scripts of the two agents. -/
structure RoundScript where
  user : AgentResponse
  assistant : AgentResponse
deriving DecidableEq, Repr

/-- The round loop of `Researcher._search_info_with_role_playing`: each
round runs `StreamRolePlaying.run`, builds the assistant and user
`ExecutionStep`s by reading `.msg.content` of the returned responses (in
that source order, so an unreadable assistant response raises first),
appends the user step then the assistant step, and breaks when
`last_user_response.terminated` or the termination callback fires on the
user step.  (The query threaded to the next round only feeds the scripted
agents and is elided.) -/
def searchLoop (cb : String → Bool) (rounds : List RoundScript)
    (research_result : ResearchExecution) : Except Exn ResearchExecution :=
  match rounds with
  | [] => .ok research_result
  | rd :: rest => do
    let (assistant_response, user_response) ←
      streamRolePlayingRun cb rd.user rd.assistant
    let assistant_msg ← assistant_response.msgProp
    let user_msg ← user_response.msgProp
    let user_execution_stop : ExecStep := ⟨some user_msg.content⟩
    let assistant_execution_step : ExecStep := ⟨some assistant_msg.content⟩
    let re1 := add_step (add_step research_result user_execution_stop)
      assistant_execution_step
    if user_response.terminated || cb user_msg.content then
      pure re1
    else
      searchLoop cb rest re1

/-- A fresh `ResearchExecution` as constructed at the top of
`_search_info_with_role_playing`. -/
def initExecution : ResearchExecution := ⟨[], .pending, none⟩

/-- Source `Researcher._search_info_with_role_playing`: run up to `round_limit`
rounds of the role-playing loop over the scripted agent responses. -/
def searchInfoWithRolePlaying (cb : String → Bool) (round_limit : Nat)
    (script : Nat → RoundScript) : Except Exn ResearchExecution :=
  searchLoop cb ((List.range round_limit).map script) initExecution

/-- Source `Researcher.run`: fans the sub-plans out through the generator
`Executor`; workload `i` delegates to `_search_info_with_role_playing`
(streamed messages do not affect the returned list and are elided as empty
yield buffers).  The worker's `return one_search_content or []` returns the
execution itself (a pydantic model instance is truthy), and the final
flatten loop copies the result list unchanged. -/
def researcherRun (cb : String → Bool) (round_limit : Nat)
    (scripts : List (Nat → RoundScript)) :
    Except Exn (List ResearchExecution) :=
  (doGeneratorCall (scripts.map (fun sc =>
    (⟨[], searchInfoWithRolePlaying cb round_limit sc⟩ :
      GenTrace Unit ResearchExecution)))).2.1

/-- The scripted dialogue of claim C5: rounds 1 and 2 are normal and free of
the sentinel, round 3's user turn contains `TASK_DONE`. -/
def c5Script : Nat → RoundScript
  | 0 => ⟨⟨some [⟨"r1 user"⟩], false⟩, ⟨some [⟨"r1 assistant"⟩], false⟩⟩
  | 1 => ⟨⟨some [⟨"r2 user"⟩], false⟩, ⟨some [⟨"r2 assistant"⟩], false⟩⟩
  | _ => ⟨⟨some [⟨"All set. TASK_DONE"⟩], false⟩,
      ⟨some [⟨"r3 assistant"⟩], false⟩⟩

/-- C5 evaluation: with the default termination predicate, a round limit of
15 and a script whose round-3 user turn contains the sentinel, the loop does
not stop cleanly after 3 rounds — in round 3 `StreamRolePlaying.run`
returns fabricated empty-`msgs` responses and the researcher's
`assistant_response.msg.content` read raises `RuntimeError`, so the run
fails after only the 4 steps of rounds 1–2 were appended (the loop's own
sentinel check, which would `break` after appending round 3's steps, is
unreachable because the same callback already fired inside
`StreamRolePlaying.run`). -/
theorem researcher_sentinel_round3_crashes :
    searchInfoWithRolePlaying defaultShouldTerminate 15 c5Script =
        .error ⟨"RuntimeError",
          "Property msg is only available for a single message in msgs"⟩ ∧
      searchLoop defaultShouldTerminate [c5Script 0, c5Script 1]
          initExecution =
        .ok ⟨[⟨some "r1 user"⟩, ⟨some "r1 assistant"⟩, ⟨some "r2 user"⟩,
          ⟨some "r2 assistant"⟩], .running, none⟩ := by
  exact ⟨rfl, rfl⟩

theorem collectFutures_ok_mem {S T : Type} (fs : List (GenTrace S T))
    (ms : List S) (rs : List T) (h : collectFutures fs = (ms, .ok rs)) :
    ∀ r ∈ rs, ∃ f ∈ fs, f.outcome = .ok r := by
  induction fs generalizing ms rs with
  | nil =>
    simp only [collectFutures, Prod.mk.injEq, Except.ok.injEq] at h
    rcases h with ⟨-, h2⟩
    subst h2
    simp
  | cons f rest ih =>
    cases hout : f.outcome with
    | error e =>
      simp [collectFutures, generator_worker, hout] at h
    | ok v =>
      rcases hcf : collectFutures rest with ⟨ms1, res⟩
      simp only [collectFutures, generator_worker, hout, hcf] at h
      cases res with
      | error e => simp [Except.map] at h
      | ok rs1 =>
        simp only [Except.map, Prod.mk.injEq, Except.ok.injEq] at h
        rcases h with ⟨-, h2⟩
        subst h2
        intro r hr
        rcases List.mem_cons.mp hr with hr | hr
        · exact ⟨f, List.mem_cons_self _ _, hr ▸ hout⟩
        · obtain ⟨f1, hf1, hout1⟩ := ih ms1 rs1 hcf r hr
          exact ⟨f1, List.mem_cons_of_mem _ hf1, hout1⟩

theorem doGeneratorCall_ok_mem {S T : Type} (ws : List (GenTrace S T))
    (rs : List T) (h : (doGeneratorCall ws).2.1 = .ok rs) :
    ∀ r ∈ rs, ∃ w ∈ ws, w.outcome = .ok r := by
  cases ws with
  | nil =>
    simp only [doGeneratorCall, Except.ok.injEq] at h
    subst h
    simp
  | cons w0 rest =>
    cases hout : w0.outcome with
    | error e => simp [doGeneratorCall, hout] at h
    | ok ret0 =>
      rcases hcf : collectFutures rest with ⟨ms1, res⟩
      simp only [doGeneratorCall, hout, hcf] at h
      cases res with
      | error e => simp [Except.map] at h
      | ok rs1 =>
        simp only [Except.map, Except.ok.injEq] at h
        subst h
        intro r hr
        rcases List.mem_cons.mp hr with hr | hr
        · exact ⟨w0, List.mem_cons_self _ _, hr ▸ hout⟩
        · obtain ⟨w1, hw1, hout1⟩ := collectFutures_ok_mem rest ms1 rs1 hcf r hr
          exact ⟨w1, List.mem_cons_of_mem _ hw1, hout1⟩

theorem searchLoop_cons_ok (cb : String → Bool) (rd : RoundScript)
    (rest : List RoundScript) (re out : ResearchExecution)
    (h : searchLoop cb (rd :: rest) re = .ok out) :
    ∃ ustep astep : ExecStep,
      out = add_step (add_step re ustep) astep ∨
        searchLoop cb rest (add_step (add_step re ustep) astep) = .ok out := by
  simp only [searchLoop] at h
  cases hrun : streamRolePlayingRun cb rd.user rd.assistant with
  | error e => rw [hrun] at h; simp [bind, Except.bind] at h
  | ok p =>
    obtain ⟨a, u⟩ := p
    rw [hrun] at h
    simp only [bind, Except.bind] at h
    cases ha : a.msgProp with
    | error e => rw [ha] at h; simp at h
    | ok am =>
      rw [ha] at h
      cases hu : u.msgProp with
      | error e => rw [hu] at h; simp at h
      | ok um =>
        rw [hu] at h
        simp only at h
        refine ⟨⟨some um.content⟩, ⟨some am.content⟩, ?_⟩
        split at h
        · left
          simp only [pure, Except.pure, Except.ok.injEq] at h
          exact h.symm
        · right
          exact h

theorem add_step_end_time (re : ResearchExecution) (s : ExecStep) :
    (add_step re s).end_time = re.end_time := rfl

theorem add_step_running (re : ResearchExecution) (s : ExecStep)
    (h : re.current_status = .pending ∨ re.current_status = .running) :
    (add_step re s).current_status = .running := by
  rcases h with h | h <;> simp [add_step, h]

theorem searchLoop_preserves (cb : String → Bool) (rounds : List RoundScript)
    (re out : ResearchExecution) (h : searchLoop cb rounds re = .ok out) :
    out.end_time = re.end_time ∧
      (re.current_status = .running → out.current_status = .running) ∧
      (rounds ≠ [] →
        re.current_status = .pending ∨ re.current_status = .running →
        out.current_status = .running) := by
  induction rounds generalizing re with
  | nil =>
    simp only [searchLoop, Except.ok.injEq] at h
    subst h
    exact ⟨rfl, fun hs => hs, fun hne => absurd rfl hne⟩
  | cons rd rest ih =>
    obtain ⟨ustep, astep, hcase⟩ := searchLoop_cons_ok cb rd rest re out h
    rcases hcase with rfl | hrec
    · refine ⟨rfl, ?_, ?_⟩
      · intro hs
        exact add_step_running _ _ (.inr (add_step_running _ _ (.inr hs)))
      · intro _ hs
        exact add_step_running _ _ (.inr (add_step_running _ _ hs))
    · obtain ⟨h1, h2, -⟩ := ih (add_step (add_step re ustep) astep) hrec
      refine ⟨by rw [h1]; rfl, ?_, ?_⟩
      · intro hs
        exact h2 (add_step_running _ _ (.inr (add_step_running _ _ (.inr hs))))
      · intro _ hs
        exact h2 (add_step_running _ _ (.inr (add_step_running _ _ hs)))

theorem searchInfo_ok_invariant (cb : String → Bool) (round_limit : Nat)
    (script : Nat → RoundScript) (out : ResearchExecution)
    (hlim : 1 ≤ round_limit)
    (h : searchInfoWithRolePlaying cb round_limit script = .ok out) :
    out.current_status = .running ∧ out.end_time = none := by
  unfold searchInfoWithRolePlaying at h
  obtain ⟨h1, -, h3⟩ := searchLoop_preserves cb _ _ _ h
  refine ⟨h3 ?_ (.inl rfl), h1⟩
  intro hnil
  rw [List.map_eq_nil_iff, List.range_eq_nil] at hnil
  omega

/-- C10: every `ResearchExecution` in a list returned normally by
`Researcher.run` with `round_limit ≥ 1` has `current_status = RUNNING` and
`end_time = None`: `add_step` moves `PENDING` to `RUNNING` on the first
append and no researcher path ever sets `COMPLETED` or records an
`end_time`. -/
theorem researcher_returns_running_executions (cb : String → Bool)
    (round_limit : Nat) (scripts : List (Nat → RoundScript))
    (res : List ResearchExecution) (hlim : 1 ≤ round_limit)
    (hrun : researcherRun cb round_limit scripts = .ok res) :
    ∀ re ∈ res, re.current_status = .running ∧ re.end_time = none := by
  intro re hre
  obtain ⟨w, hw, hout⟩ := doGeneratorCall_ok_mem _ res hrun re hre
  obtain ⟨sc, -, rfl⟩ := List.mem_map.mp hw
  exact searchInfo_ok_invariant cb round_limit sc re hlim hout

/-- Witness for `researcher_returns_running_executions`: one sub-plan, one
round, no sentinel — the run completes normally with a `RUNNING`,
`end_time`-free execution. -/
theorem researcher_returns_running_executions_witness :
    (1 ≤ 1) ∧
      researcherRun defaultShouldTerminate 1
          [fun _ => ⟨⟨some [⟨"u"⟩], false⟩, ⟨some [⟨"a"⟩], false⟩⟩] =
        .ok [⟨[⟨some "u"⟩, ⟨some "a"⟩], .running, none⟩] ∧
      (⟨[⟨some "u"⟩, ⟨some "a"⟩], .running, none⟩ :
          ResearchExecution).current_status = .running := by
  refine ⟨Nat.le_refl 1, rfl, ?_⟩
  exact (researcher_returns_running_executions defaultShouldTerminate 1
    [fun _ => ⟨⟨some [⟨"u"⟩], false⟩, ⟨some [⟨"a"⟩], false⟩⟩]
    [⟨[⟨some "u"⟩, ⟨some "a"⟩], .running, none⟩] (Nat.le_refl 1) rfl
    _ (List.mem_singleton.mpr rfl)).1

/-! ## Report assembly and citation merging
(`deepinsight/core/agent/reporter.py`)

The Python string operations used by `_process_citations`,
`_get_citation_dicts`, `_get_url_cite_content` and `_process_final_result`
are re-implemented below with Python's semantics (`str.find`, `str.split`,
`str.strip`, `str.replace`, and the regular expression `\((.*?)\)` applied
to a single line).  Loops that shrink the text each iteration are written
with a fuel argument large enough (`length + 1`) that it can never run
out. -/

/-- Python `hay.find(needle)` restricted to success: the first index where
`needle` occurs in `hay` (the caller turns Python's `-1` into the `none`
branch). -/
def findSub : List Char → List Char → Option Nat
  | [], needle => if needle.isEmpty then some 0 else none
  | c :: rest, needle =>
    if needle.isPrefixOf (c :: rest) then some 0
    else (findSub rest needle).map (· + 1)

def citationStartTag : List Char := "[citation]".toList
def citationEndTag : List Char := "[citation/]".toList

/-- The excision loop of `_process_citations` (mode `"both"`): repeatedly
locate the next `[citation]` block, collect it and cut it out of the text.
Each iteration removes a non-empty block, so `text.length + 1` fuel always
suffices. -/
def processCitationsAux : Nat → List Char → List (List Char) →
    List Char × List (List Char)
  | 0, text, blocks => (text, blocks)
  | fuel + 1, text, blocks =>
    match findSub text citationStartTag with
    | none => (text, blocks)
    | some start_idx =>
      match findSub (text.drop start_idx) citationEndTag with
      | none => (text, blocks)
      | some e =>
        let end_idx := start_idx + e + citationEndTag.length
        let block := (text.drop start_idx).take (end_idx - start_idx)
        processCitationsAux fuel (text.take start_idx ++ text.drop end_idx)
          (blocks ++ [block])

/-- Source `_process_citations(text, mode="both")`: the cleaned text and the list
of excised citation blocks. -/
def processCitations (text : String) : String × List String :=
  let p := processCitationsAux (text.length + 1) text.toList []
  (String.mk p.1, p.2.map String.mk)

/-- Python `str.split(sep)` (non-empty separator), fuelled. -/
def pySplitAux : Nat → List Char → List Char → List (List Char)
  | 0, s, _ => [s]
  | fuel + 1, s, sep =>
    match findSub s sep with
    | none => [s]
    | some i => s.take i :: pySplitAux fuel (s.drop (i + sep.length)) sep

/-- Python `str.split(sep)` with a non-empty separator. -/
def pySplit (s sep : String) : List String :=
  (pySplitAux (s.length + 1) s.toList sep.toList).map String.mk

/-- The whitespace characters stripped by Python `str.strip()`. -/
def pyIsSpace (c : Char) : Bool :=
  c = ' ' || c = '\t' || c = '\n' || c = '\r' || c = '\x0b' || c = '\x0c'

/-- Python `str.strip()`. -/
def pyStrip (s : String) : String :=
  String.mk
    (((s.toList.dropWhile pyIsSpace).reverse.dropWhile pyIsSpace).reverse)

/-- Python `str.replace(pat, repl)` (non-empty pattern): replaces
non-overlapping occurrences from the left, fuelled. -/
def pyReplaceAux : Nat → List Char → List Char → List Char → List Char
  | 0, s, _, _ => s
  | fuel + 1, s, pat, repl =>
    match findSub s pat with
    | none => s
    | some i =>
      s.take i ++ repl ++ pyReplaceAux fuel (s.drop (i + pat.length)) pat repl

/-- Python `str.replace(pat, repl)` with a non-empty pattern. -/
def pyReplace (s pat repl : String) : String :=
  String.mk (pyReplaceAux (s.length + 1) s.toList pat.toList repl.toList)

/-- First match of the regular expression `\((.*?)\)` on a single line (no
newlines): the group is the text between the leftmost `(` that is followed
by a `)` and the first such `)`.  (If the leftmost `(` has no `)` after it,
no later one can either, so the fall-through is harmless.) -/
def firstParenGroup : List Char → Option (List Char)
  | [] => none
  | c :: rest =>
    if c = '(' then
      match findSub rest [')'] with
      | some i => some (rest.take i)
      | none => firstParenGroup rest
    else firstParenGroup rest

/-- Source `_get_url_cite_content(line, result)`: cut `[result]` off the front of
the line, then extract the first parenthesised group as the URL (empty
string when there is no match, which the caller treats as falsy). -/
def getUrlCiteContent (line result : String) : String × String :=
  let cut_length := result.length + 2
  let cut_line := String.mk (line.toList.drop cut_length)
  match firstParenGroup cut_line.toList with
  | none => ("", cut_line)
  | some url => (String.mk url, cut_line)

/-- Source `line.split(']')[0].split('[')[1]` as used on lines already known to
contain `[` and to have survived extraction (on such lines index 1
exists). -/
def lineKey (line : String) : String :=
  ((pySplit ((pySplit line "]").getD 0 "") "[").getD 1 "")

/-- The per-URL entry of `total_duplicate_map`: the (string) global index
assigned on first sight and the trimmed citation text. -/
structure CitEntry where
  index : String
  citation_content : String
deriving DecidableEq, Repr

/-- One iteration of the line loop of `_get_citation_dicts`: strip the
line, skip the block tags, skip empty and bracketless lines, extract the
key (`IndexError` if a `]` precedes every `[`), record the line under the
key, and — when a URL is present and fresh — assign it the next global
index. -/
def processCitationLine
    (st : List (String × String) × List (String × CitEntry) × Nat)
    (rawLine : String) :
    Except Exn (List (String × String) × List (String × CitEntry) × Nat) :=
  let line := pyStrip rawLine
  if line = "[citation]" ∨ line = "[citation/]" then .ok st
  else if line = "" || !(pyIn "[" line) then .ok st
  else
    match (pySplit ((pySplit line "]").getD 0 "") "[").get? 1 with
    | none => .error ⟨"IndexError", "list index out of range"⟩
    | some result =>
      let citation_dict := dictSet st.1 result line
      let (url, cut_line) := getUrlCiteContent line result
      if url = "" then .ok (citation_dict, st.2.1, st.2.2)
      else if (dictGet st.2.1 url).isSome then
        .ok (citation_dict, st.2.1, st.2.2)
      else
        .ok (citation_dict,
          dictSet st.2.1 url ⟨toString (st.2.2 + 1), cut_line⟩, st.2.2 + 1)

/-- Source `_get_citation_dicts(citation_list)`: fold the line loop over every
non-empty citation block, returning the key → line dictionary and the
URL → (index, content) deduplication map (both insertion-ordered). -/
def getCitationDicts (citation_list : List String) :
    Except Exn (List (String × String) × List (String × CitEntry)) := do
  let st ← citation_list.foldlM
    (fun st citation_text =>
      if citation_text = "" then pure st
      else (pySplit citation_text "\n").foldlM processCitationLine st)
    (([], [], 0) : List (String × String) × List (String × CitEntry) × Nat)
  pure (st.1, st.2.1)

/-- The replacement loop of `_process_final_result`: `for key in
citation_dict`, look the key up, re-derive the URL from the stored line,
and replace every `[key]` in the body with the superscripted global index.
The `if key not in citation_dict: raise ValueError("wrong citation
structure")` check ranges over `citation_dict` itself and can never fire;
a URL missing from the deduplication map is logged and skipped. -/
def replaceCitationKeys (keys : List String)
    (total_duplicate_map : List (String × CitEntry))
    (citation_dict : List (String × String)) (text : String) :
    Except Exn String :=
  match keys with
  | [] => .ok text
  | key :: rest =>
    if (dictGet citation_dict key).isNone then
      .error ⟨"ValueError", "wrong citation structure"⟩
    else
      let citation_val := (dictGet citation_dict key).getD ""
      let result := lineKey citation_val
      let (url, _) := getUrlCiteContent citation_val result
      match dictGet total_duplicate_map url with
      | none => replaceCitationKeys rest total_duplicate_map citation_dict text
      | some entry =>
        replaceCitationKeys rest total_duplicate_map citation_dict
          (pyReplace text ("[" ++ key ++ "]")
            ("<sup>[" ++ entry.index ++ "]</sup>"))

/-- Source `_process_final_result(cleaned_text, total_duplicate_map,
citation_dict)`: run the replacement loop, then append the references
section listing the deduplication map's entries in insertion order. -/
def processFinalResult (cleaned_text : String)
    (total_duplicate_map : List (String × CitEntry))
    (citation_dict : List (String × String)) : Except Exn String := do
  let replaced ← replaceCitationKeys (citation_dict.map Prod.fst)
    total_duplicate_map citation_dict cleaned_text
  let citation := total_duplicate_map.foldl
    (fun acc p =>
      acc ++ "[" ++ p.2.index ++ "]" ++ p.2.citation_content ++ "  \n")
    "## 参考内容  \n"
  pure (replaced ++ "\n" ++ citation)

/-- Source `Reporter._default_report_post_processer`: join the written section
contents with `"\n"`, excise the citation blocks, build the citation
dictionaries, and assemble the final text.  A pure function of its input,
so running it twice on the same input yields identical output. -/
def defaultReportPostProcesser (writing_contents : List String) :
    Except Exn String := do
  let p := processCitations (String.intercalate "\n" writing_contents)
  let (citation_dict, total_duplicate_map) ← getCitationDicts p.2
  processFinalResult p.1 total_duplicate_map citation_dict

/-- C6 evaluation: with a body placeholder `[X]` that has no entry in the
citation dictionary, assembly does not raise — it returns normally and
leaves `[X]` verbatim in the output.  The `raise ValueError("wrong citation
structure")` guard in `_process_final_result` tests membership of a key in
the very dictionary it iterates over and is unreachable, so the claimed
loud failure never happens (the extraction-side leniency the claim also
states does hold: unparseable lines are skipped).  -/
theorem citation_unmapped_key_not_raised :
    defaultReportPostProcesser
        ["See [X] and [A].\n[citation]\n[A] Src One(u1)\n[citation/]"] =
      .ok "See [X] and <sup>[1]</sup>.\n\n## 参考内容  \n[1] Src One(u1)  \n" ∧
    pyIn "[X]"
      "See [X] and <sup>[1]</sup>.\n\n## 参考内容  \n[1] Src One(u1)  \n" =
      true := by
  constructor
  · set_option maxRecDepth 10000 in rfl
  · rfl

/-- C7: on the fixed input whose citation blocks reference `[A](u1)`,
`[B](u2)` and `[A](u1)` again in a later section, assembly assigns global
index 1 to `u1` and 2 to `u2` (first-seen order over the insertion-ordered
citation dictionary), rewrites every `[A]` to `<sup>[1]</sup>` and every
`[B]` to `<sup>[2]</sup>`, and appends a references section with exactly
those two entries in that order.  The assembly pipeline
`defaultReportPostProcesser` is a pure function of its input, so running it
twice on the same input necessarily yields this identical output. -/
theorem citation_assembly_deterministic_indexing :
    defaultReportPostProcesser
        ["Alpha [A] beta [B].\n[citation]\n[A] Src One(u1)\n[B] Src Two(u2)\n[citation/]",
         "Gamma [A] again.\n[citation]\n[A] Src One(u1)\n[citation/]"] =
      .ok ("Alpha <sup>[1]</sup> beta <sup>[2]</sup>.\n\nGamma <sup>[1]</sup> again.\n" ++
        "\n## 参考内容  \n[1] Src One(u1)  \n[2] Src Two(u2)  \n") := by
  set_option maxRecDepth 100000 in rfl

/-! ## Planner result routing and the orchestrator state machine
(`deepinsight/core/agent/planner.py`, `deepinsight/core/orchestrator.py`)

`Orchestrator.run` drives the three phases in sequence.  The Planner,
Researcher and Reporter are LLM-backed collaborators whose calls are
modelled by their outcomes; the raw progress messages they stream are
passed through unmodified and are elided, except that every reporter
message tagged `REPORT_WRITING` is re-surfaced as a `REPORT_WRITING` phase
marker (the tag sequence is kept as a list of booleans).  Wall-clock times
are an abstract `now : Nat`. -/

/-- Source `PlanStatus`. -/
inductive PlanStatus
  | draft | finalized | rejected | incomplete_info
deriving DecidableEq, Repr

/-- Source `SearchPlan` (planner.py). -/
structure SearchPlan where
  title : String
  description : String
  origin_plan : String
deriving DecidableEq, Repr

/-- Source `PlanResult` (planner.py). -/
structure PlanResult where
  search_plans : Option (List SearchPlan)
  status : PlanStatus
  information_required : Option String
deriving DecidableEq, Repr

/-- Source `PlanResult.requires_user_input`: status is `INCOMPLETE_INFO` and
`bool(self.information_required)` (`None` and `""` are falsy). -/
def PlanResult.requires_user_input (p : PlanResult) : Bool :=
  p.status = PlanStatus.incomplete_info && truthyOptStr p.information_required

/-- Source `OrchestratorStatusType`. -/
inductive OrchPhase
  | pending | planning | researching | report_planning | report_writing
  | completed | failed
deriving DecidableEq, Repr

/-- Source `OrchestrationResult` (defaults: `None`/`False`). -/
structure OrchestrationResult where
  report : Option String := none
  plan_draft : Option String := none
  require_user_interactive : Bool := false
  require_user_feedback : Option String := none
deriving DecidableEq, Repr

/-- Source `OrchestrationException`: the `stage` passed at construction, the
original error, and the construction-time timestamp. -/
structure OrchestrationException where
  stage : OrchPhase
  original_error : Exn
  timestamp : Nat
deriving DecidableEq, Repr

/-- The observable outcome of one `Orchestrator.run` call: the phase
markers yielded (in order), the return value or raised wrapped exception,
the final `current_phase`, and `end_time`. -/
structure OrchRunOutcome where
  markers : List OrchPhase
  result : Except OrchestrationException OrchestrationResult
  current_phase : OrchPhase
  end_time : Option Nat
deriving Repr

/-- The body of `Orchestrator.run`'s `try:` block: markers yielded so far,
the phase current when the body finished or when the exception escaped, and
the result or error. -/
def orchestratorTryBody (planner_outcome : Except Exn PlanResult)
    (research_outcome : Except Exn Unit) (reporter_tags : List Bool)
    (reporter_outcome : Except Exn String) :
    Except (List OrchPhase × OrchPhase × Exn)
      (List OrchPhase × OrchPhase × OrchestrationResult) :=
  -- Phase 1: `current_phase = PLANNING; yield PLANNING`
  match planner_outcome with
  | .error e => .error ([.planning], .planning, e)
  | .ok plan_result =>
    if plan_result.requires_user_input then
      .ok ([.planning], .planning,
        { require_user_interactive := true,
          require_user_feedback := plan_result.information_required })
    else if plan_result.status = PlanStatus.draft then
      match plan_result.search_plans with
      | none =>
        -- `"\n".join(plan.origin_plan for plan in plan_result.search_plans)`
        -- iterates `None`: `TypeError`, caught by the surrounding `except`
        .error ([.planning], .planning, ⟨"TypeError", "NoneType is not iterable"⟩)
      | some plans =>
        .ok ([.planning], .planning,
          { require_user_interactive := true,
            plan_draft := some (String.intercalate "\n"
              (plans.map SearchPlan.origin_plan)) })
    else
      -- Phase 2: `current_phase = RESEARCHING; yield RESEARCHING`
      match research_outcome with
      | .error e => .error ([.planning, .researching], .researching, e)
      | .ok _ =>
        -- Phase 3: `current_phase = REPORT_PLANNING; yield REPORT_PLANNING`,
        -- then pump the reporter, re-yielding a REPORT_WRITING marker (and
        -- moving the phase) for every REPORT_WRITING-tagged message
        let writing_markers := (reporter_tags.filter id).map
          (fun _ => OrchPhase.report_writing)
        let phase_after := if reporter_tags.any id then
          OrchPhase.report_writing else OrchPhase.report_planning
        match reporter_outcome with
        | .error e =>
          .error ([.planning, .researching, .report_planning] ++
            writing_markers, phase_after, e)
        | .ok report_result =>
          -- `current_phase = COMPLETED; return OrchestrationResult(report=...)`
          .ok ([.planning, .researching, .report_planning] ++ writing_markers,
            .completed, { report := some report_result })

/-- Source `Orchestrator.run`.  On an escaped exception the handler first sets
`current_phase = FAILED` and only then constructs
`OrchestrationException(stage=self.current_phase, ...)`, so the recorded
stage is `FAILED`, not the phase that was executing; the `finally:` block
sets `end_time` on every path. -/
def orchestratorRun (planner_outcome : Except Exn PlanResult)
    (research_outcome : Except Exn Unit) (reporter_tags : List Bool)
    (reporter_outcome : Except Exn String) (now : Nat) : OrchRunOutcome :=
  match orchestratorTryBody planner_outcome research_outcome reporter_tags
    reporter_outcome with
  | .ok (markers, phase, res) =>
    { markers := markers, result := .ok res, current_phase := phase,
      end_time := some now }
  | .error (markers, _, exc) =>
    { markers := markers,
      result := .error ⟨.failed, exc, now⟩,
      current_phase := .failed,
      end_time := some now }

/-- C8: planner-status routing of `Orchestrator.run`.
`requires_user_input` is true exactly for `INCOMPLETE_INFO` with non-empty
`information_required`; such a result returns
`require_user_interactive=True` with the feedback text and no report; a
`DRAFT` result returns `require_user_interactive=True` with the sub-plans'
`origin_plan` texts joined by newlines; a `FINALIZED` result proceeds to
the Researching phase, whose marker is yielded. -/
theorem orchestrator_plan_status_routing
    (p1 p2 p3 : PlanResult) (info : String) (plans : List SearchPlan)
    (ro : Except Exn Unit) (rtags : List Bool) (rr : Except Exn String)
    (now : Nat)
    (h1 : p1.status = PlanStatus.incomplete_info ∧
      p1.information_required = some info ∧ info ≠ "")
    (h2 : p2.status = PlanStatus.draft ∧ p2.search_plans = some plans)
    (h3 : p3.status = PlanStatus.finalized) :
    (∀ p : PlanResult, p.requires_user_input = true ↔
        (p.status = PlanStatus.incomplete_info ∧
          truthyOptStr p.information_required = true)) ∧
      (orchestratorRun (.ok p1) ro rtags rr now).result =
        .ok ⟨none, none, true, some info⟩ ∧
      (orchestratorRun (.ok p2) ro rtags rr now).result =
        .ok ⟨none, some (String.intercalate "\n"
          (plans.map SearchPlan.origin_plan)), true, none⟩ ∧
      OrchPhase.researching ∈ (orchestratorRun (.ok p3) ro rtags rr now).markers := by
  obtain ⟨h1s, h1i, h1ne⟩ := h1
  obtain ⟨h2s, h2p⟩ := h2
  refine ⟨?_, ?_, ?_, ?_⟩
  · intro p
    simp [PlanResult.requires_user_input]
  · have hru : p1.requires_user_input = true := by
      simp [PlanResult.requires_user_input, h1s, h1i, truthyOptStr, h1ne]
    simp [orchestratorRun, orchestratorTryBody, hru, h1i]
  · have hru : p2.requires_user_input = false := by
      simp [PlanResult.requires_user_input, h2s]
    simp [orchestratorRun, orchestratorTryBody, hru, h2s, h2p]
  · have hru : p3.requires_user_input = false := by
      simp [PlanResult.requires_user_input, h3]
    have hnd : p3.status ≠ PlanStatus.draft := by rw [h3]; intro hc; cases hc
    cases ro with
    | error e => simp [orchestratorRun, orchestratorTryBody, hru, hnd]
    | ok u =>
      cases rr with
      | error e => simp [orchestratorRun, orchestratorTryBody, hru, hnd]
      | ok s => simp [orchestratorRun, orchestratorTryBody, hru, hnd]

/-- Witness for `orchestrator_plan_status_routing` at concrete plan
results. -/
theorem orchestrator_plan_status_routing_witness :
    (orchestratorRun (.ok ⟨none, .incomplete_info, some "which scope?"⟩)
        (.ok ()) [] (.ok "rpt") 3).result =
      .ok ⟨none, none, true, some "which scope?"⟩ ∧
    (orchestratorRun (.ok ⟨some [⟨"t", "d", "p1"⟩, ⟨"t2", "d2", "p2"⟩],
        .draft, none⟩) (.ok ()) [] (.ok "rpt") 3).result =
      .ok ⟨none, some "p1\np2", true, none⟩ ∧
    OrchPhase.researching ∈
      (orchestratorRun (.ok ⟨some [], .finalized, none⟩)
        (.ok ()) [] (.ok "rpt") 3).markers := by
  have h := orchestrator_plan_status_routing
    ⟨none, .incomplete_info, some "which scope?"⟩
    ⟨some [⟨"t", "d", "p1"⟩, ⟨"t2", "d2", "p2"⟩], .draft, none⟩
    ⟨some [], .finalized, none⟩ "which scope?"
    [⟨"t", "d", "p1"⟩, ⟨"t2", "d2", "p2"⟩] (.ok ()) [] (.ok "rpt") 3
    ⟨rfl, rfl, by decide⟩ ⟨rfl, rfl⟩ rfl
  exact ⟨h.2.1, h.2.2.1, h.2.2.2⟩

/-- C9 evaluation (together with the universally-true half of the claim):
when the Planner raises during the Planning phase, the wrapped
`OrchestrationException` carries `stage = FAILED` — `current_phase` is
overwritten to `FAILED` before the exception is constructed, so the stage
is never the phase that was executing (here `PLANNING`) — while `end_time`
is indeed set on every path, success or failure, by the `finally:`
block. -/
theorem orchestrator_failure_stage_always_failed :
    (orchestratorRun (.error ⟨"RuntimeError", "planner boom"⟩)
        (.ok ()) [] (.ok "rpt") 7) =
      ⟨[.planning],
        .error ⟨.failed, ⟨"RuntimeError", "planner boom"⟩, 7⟩,
        .failed, some 7⟩ ∧
    (∀ po ro rtags rr now, (orchestratorRun po ro rtags rr now).end_time =
      some now) ∧
    (∀ po ro rtags rr now exc,
      (orchestratorRun po ro rtags rr now).result = .error exc →
      exc.stage = OrchPhase.failed) := by
  refine ⟨rfl, ?_, ?_⟩
  · intro po ro rtags rr now
    unfold orchestratorRun
    cases orchestratorTryBody po ro rtags rr with
    | ok p => rcases p with ⟨m, ph, r⟩; rfl
    | error p => rcases p with ⟨m, ph, e⟩; rfl
  · intro po ro rtags rr now exc h
    unfold orchestratorRun at h
    cases htb : orchestratorTryBody po ro rtags rr with
    | ok p =>
      rw [htb] at h
      rcases p with ⟨m, ph, r⟩
      simp at h
    | error p =>
      rw [htb] at h
      rcases p with ⟨m, ph, e⟩
      simp only [Except.error.injEq] at h
      rw [← h]

/-- Witness for `orchestrator_failure_stage_always_failed`: the wrapped
exception of a concrete failing run has `stage = FAILED`. -/
theorem orchestrator_failure_stage_always_failed_witness :
    (orchestratorRun (.error ⟨"ValueError", "bad plan"⟩) (.ok ()) []
        (.ok "rpt") 5).result =
      .error ⟨.failed, ⟨"ValueError", "bad plan"⟩, 5⟩ ∧
    (⟨.failed, ⟨"ValueError", "bad plan"⟩, 5⟩ :
        OrchestrationException).stage = OrchPhase.failed := by
  refine ⟨rfl, ?_⟩
  exact orchestrator_failure_stage_always_failed.2.2
    (.error ⟨"ValueError", "bad plan"⟩) (.ok ()) [] (.ok "rpt") 5
    ⟨.failed, ⟨"ValueError", "bad plan"⟩, 5⟩ rfl
